import Mathlib

/-!
Verification of the multixact (grouped-transaction) subsystem: identifier and
page-layout arithmetic, circular (modulo 2^32) comparisons, the write path
`RecordNewMultiXact`, the redo replayer `multixact_redo`, and the counter
advance `MultiXactAdvanceNextMXact`, shallowly embedded from the C source.
Machine 32-bit unsigned values are represented as `Nat` together with explicit
reduction modulo `U32 = 2^32` where the C code's `uint32` arithmetic wraps.
-/

/-- 2^32, the size of the 32-bit unsigned space. -/
def U32 : Nat := 4294967296

/-- 2^32 - 1, the all-ones 32-bit word. -/
def U32MASK : Nat := 4294967295

/-- 2^31, the sign boundary of `int32`. -/
def INT32MIN : Nat := 2147483648

/-- Modelled from the spec: `BLCKSZ`, the storage block (page) size, comes from
the build configuration header (`pg_config.h`), which is not part of the given
sources; the spec fixes pages as one storage block, standard value 8192. -/
def BLCKSZ : Nat := 8192

/-- `MULTIXACT_OFFSETS_PER_PAGE = BLCKSZ / sizeof(MultiXactOffset)`, with
`MultiXactOffset` a 32-bit unsigned integer (4 bytes). -/
def MULTIXACT_OFFSETS_PER_PAGE : Nat := BLCKSZ / 4

/-- `MultiXactIdToOffsetPage(xid) = xid / MULTIXACT_OFFSETS_PER_PAGE`. -/
def MultiXactIdToOffsetPage (xid : Nat) : Nat :=
  xid / MULTIXACT_OFFSETS_PER_PAGE

/-- `MultiXactIdToOffsetEntry(xid) = xid % MULTIXACT_OFFSETS_PER_PAGE`. -/
def MultiXactIdToOffsetEntry (xid : Nat) : Nat :=
  xid % MULTIXACT_OFFSETS_PER_PAGE

/-- `MXACT_MEMBER_BITS_PER_XACT`: 8 status bits per member. -/
def MXACT_MEMBER_BITS_PER_XACT : Nat := 8

/-- `MXACT_MEMBER_XACT_BITMASK = (1 << 8) - 1 = 255`. -/
def MXACT_MEMBER_XACT_BITMASK : Nat := (1 <<< MXACT_MEMBER_BITS_PER_XACT) - 1

/-- `MULTIXACT_FLAGBYTES_PER_GROUP = 4`. -/
def MULTIXACT_FLAGBYTES_PER_GROUP : Nat := 4

/-- `MULTIXACT_MEMBERS_PER_MEMBERGROUP = 4 * 1 = 4`. -/
def MULTIXACT_MEMBERS_PER_MEMBERGROUP : Nat := MULTIXACT_FLAGBYTES_PER_GROUP * 1

/-- `MULTIXACT_MEMBERGROUP_SIZE = sizeof(TransactionId)*4 + 4 = 20` bytes. -/
def MULTIXACT_MEMBERGROUP_SIZE : Nat :=
  4 * MULTIXACT_MEMBERS_PER_MEMBERGROUP + MULTIXACT_FLAGBYTES_PER_GROUP

/-- `MULTIXACT_MEMBERGROUPS_PER_PAGE = BLCKSZ / 20 = 409`. -/
def MULTIXACT_MEMBERGROUPS_PER_PAGE : Nat := BLCKSZ / MULTIXACT_MEMBERGROUP_SIZE

/-- `MULTIXACT_MEMBERS_PER_PAGE = 409 * 4 = 1636`. -/
def MULTIXACT_MEMBERS_PER_PAGE : Nat :=
  MULTIXACT_MEMBERGROUPS_PER_PAGE * MULTIXACT_MEMBERS_PER_MEMBERGROUP

/-- `MXOffsetToMemberPage(xid) = xid / MULTIXACT_MEMBERS_PER_PAGE`. -/
def MXOffsetToMemberPage (xid : Nat) : Nat :=
  xid / MULTIXACT_MEMBERS_PER_PAGE

/-- `MXOffsetToFlagsOffset(xid)`: byte offset within the member page of the
flag word of `xid`'s member group. -/
def MXOffsetToFlagsOffset (xid : Nat) : Nat :=
  ((xid / MULTIXACT_MEMBERS_PER_MEMBERGROUP) % MULTIXACT_MEMBERGROUPS_PER_PAGE) *
    MULTIXACT_MEMBERGROUP_SIZE

/-- `MXOffsetToFlagsBitShift(xid) = (xid % 4) * 8`. -/
def MXOffsetToFlagsBitShift (xid : Nat) : Nat :=
  (xid % MULTIXACT_MEMBERS_PER_MEMBERGROUP) * MXACT_MEMBER_BITS_PER_XACT

/-- `MXOffsetToMemberOffset(xid)`: byte offset within the member page of the
transaction id of member `xid`. -/
def MXOffsetToMemberOffset (xid : Nat) : Nat :=
  MXOffsetToFlagsOffset xid + MULTIXACT_FLAGBYTES_PER_GROUP +
    (xid % MULTIXACT_MEMBERS_PER_MEMBERGROUP) * 4

/-- `(a - b)` as C computes it on `uint32` operands: subtraction modulo 2^32.
Inputs are expected to be below `U32`. -/
def sub32 (a b : Nat) : Nat := (a + (U32 - b % U32)) % U32

/-- Reinterpret a `uint32` bit pattern as the C `int32` value it denotes. -/
def toInt32 (n : Nat) : Int :=
  if n % U32 < INT32MIN then (n % U32 : Int) else (n % U32 : Int) - (U32 : Int)

/-- `MultiXactIdPrecedes(multi1, multi2) = (int32)(multi1 - multi2) < 0`. -/
def MultiXactIdPrecedes (multi1 multi2 : Nat) : Bool :=
  toInt32 (sub32 multi1 multi2) < 0

/-- `MultiXactIdPrecedesOrEquals(multi1, multi2) = (int32)(multi1 - multi2) <= 0`. -/
def MultiXactIdPrecedesOrEquals (multi1 multi2 : Nat) : Bool :=
  toInt32 (sub32 multi1 multi2) ≤ 0

/-- `MultiXactOffsetPrecedes(offset1, offset2) = (int32)(offset1 - offset2) < 0`. -/
def MultiXactOffsetPrecedes (offset1 offset2 : Nat) : Bool :=
  toInt32 (sub32 offset1 offset2) < 0

/-- Modelled from the spec: `FirstNormalTransactionId` comes from
`access/transam.h`, which is not among the given sources; the reserved special
transaction ids are 0 (invalid), 1 (bootstrap) and 2 (frozen), so the first
normal id is 3. -/
def FirstNormalTransactionId : Nat := 3

/-- Modelled from the spec: `TransactionIdIsNormal(xid)` from
`access/transam.h` (not among the given sources): `xid >= FirstNormalTransactionId`. -/
def TransactionIdIsNormal (xid : Nat) : Bool :=
  FirstNormalTransactionId ≤ xid

/-- `TransactionIdPrecedes(id1, id2)`: plain unsigned comparison when either id
is a permanent (special) id, signed modulo-2^32 comparison otherwise. -/
def TransactionIdPrecedes (id1 id2 : Nat) : Bool :=
  if ¬ TransactionIdIsNormal id1 ∨ ¬ TransactionIdIsNormal id2 then
    id1 < id2
  else
    toInt32 (sub32 id1 id2) < 0

/-- `TransactionIdFollowsOrEquals(id1, id2)`: plain unsigned comparison when
either id is special, signed modulo-2^32 comparison otherwise. -/
def TransactionIdFollowsOrEquals (id1 id2 : Nat) : Bool :=
  if ¬ TransactionIdIsNormal id1 ∨ ¬ TransactionIdIsNormal id2 then
    id2 ≤ id1
  else
    0 ≤ toInt32 (sub32 id1 id2)

/-- Modelled from the spec: `TransactionIdAdvance(dest)` from
`access/transam.h` (not among the given sources): increment modulo 2^32,
skipping the reserved special ids below `FirstNormalTransactionId`. -/
def TransactionIdAdvance (xid : Nat) : Nat :=
  if (xid + 1) % U32 < FirstNormalTransactionId then FirstNormalTransactionId
  else (xid + 1) % U32

/-- Shared counter state `MultiXactStateData`. -/
structure MultiXactStateData where
  nextMXact : Nat
  nextOffset : Nat

/-- Result of a counter-advance call: normal return, or process abort
(`exit(1)`); the carried state is the counter state at termination. -/
inductive AdvanceResult where
  | ok (st : MultiXactStateData)
  | aborted (st : MultiXactStateData)

/-- Counter state at termination of an advance call, whether it completed or
aborted. -/
def AdvanceResult.state : AdvanceResult → MultiXactStateData
  | .ok st => st
  | .aborted st => st

/-- `updateMinMulti` (source lines 105-110): prints "not implemented" and
`exit(1)` — a process abort that never changes the counter state. -/
def updateMinMulti (st : MultiXactStateData) (_minMulti : Nat) : AdvanceResult :=
  .aborted st

/-- `updateMinMultiOffset` (source lines 112-117): prints "not implemented"
and `exit(1)` — a process abort that never changes the counter state. -/
def updateMinMultiOffset (st : MultiXactStateData) (_off : Nat) : AdvanceResult :=
  .aborted st

/-- `MultiXactAdvanceNextMXact(minMulti, minMultiOffset)` (source lines
147-159): two sequential `precedes` tests, each calling the corresponding
update function when it fires.  `updateMinMulti` exits the process and does
not return, so the second test is reached only when the first does not fire;
the two C `if` statements therefore behave as the if/else-if chain below. -/
def MultiXactAdvanceNextMXact (st : MultiXactStateData)
    (minMulti minMultiOffset : Nat) : AdvanceResult :=
  if MultiXactIdPrecedes st.nextMXact minMulti then
    updateMinMulti st minMulti
  else if MultiXactOffsetPrecedes st.nextOffset minMultiOffset then
    updateMinMultiOffset st minMultiOffset
  else .ok st

theorem toInt32_neg_iff (n : Nat) : toInt32 n < 0 ↔ INT32MIN ≤ n % U32 := by
  unfold toInt32 INT32MIN U32
  split
  · constructor
    · intro h
      exfalso
      have : (0 : Int) ≤ ((n % 4294967296 : Nat) : Int) := Int.ofNat_nonneg _
      omega
    · intro h
      omega
  · constructor
    · intro _
      omega
    · intro _
      have hlt : n % 4294967296 < 4294967296 := Nat.mod_lt _ (by norm_num)
      have : ((n % 4294967296 : Nat) : Int) < (4294967296 : Int) := by
        exact_mod_cast hlt
      omega

theorem sub32_lt (a b : Nat) : sub32 a b < U32 := by
  unfold sub32 U32
  exact Nat.mod_lt _ (by norm_num)

theorem MultiXactIdPrecedes_iff (a b : Nat) :
    MultiXactIdPrecedes a b = true ↔ INT32MIN ≤ sub32 a b := by
  unfold MultiXactIdPrecedes
  rw [decide_eq_true_iff, toInt32_neg_iff]
  rw [Nat.mod_eq_of_lt (sub32_lt a b)]

theorem MultiXactOffsetPrecedes_iff (a b : Nat) :
    MultiXactOffsetPrecedes a b = true ↔ INT32MIN ≤ sub32 a b := by
  unfold MultiXactOffsetPrecedes
  rw [decide_eq_true_iff, toInt32_neg_iff]
  rw [Nat.mod_eq_of_lt (sub32_lt a b)]

/-- Claim C5: the circular comparison `precedes`, for both `GroupId`
(`MultiXactIdPrecedes`) and `MemberOffset` (`MultiXactOffsetPrecedes`), is
shift-invariant (adding 1 modulo 2^32 to both arguments preserves its value)
and irreflexive. -/
theorem precedes_shift_invariant_irrefl (a b : Nat) (_ha : a < U32) (_hb : b < U32) :
    (MultiXactIdPrecedes ((a + 1) % U32) ((b + 1) % U32) = MultiXactIdPrecedes a b ∧
      MultiXactOffsetPrecedes ((a + 1) % U32) ((b + 1) % U32) = MultiXactOffsetPrecedes a b) ∧
    (MultiXactIdPrecedes a a = false ∧ MultiXactOffsetPrecedes a a = false) := by
  have hsub : sub32 ((a + 1) % U32) ((b + 1) % U32) = sub32 a b := by
    unfold sub32 U32 at *
    omega
  have hself : sub32 a a = 0 := by
    unfold sub32 U32 at *
    omega
  refine ⟨⟨?_, ?_⟩, ?_, ?_⟩
  · cases h1 : MultiXactIdPrecedes a b
    · cases h2 : MultiXactIdPrecedes ((a + 1) % U32) ((b + 1) % U32)
      · rfl
      · rw [MultiXactIdPrecedes_iff, hsub] at h2
        have := (MultiXactIdPrecedes_iff a b).mpr h2
        rw [h1] at this
        exact this.symm
    · exact (MultiXactIdPrecedes_iff _ _).mpr
        (by rw [hsub]; exact (MultiXactIdPrecedes_iff a b).mp h1)
  · cases h1 : MultiXactOffsetPrecedes a b
    · cases h2 : MultiXactOffsetPrecedes ((a + 1) % U32) ((b + 1) % U32)
      · rfl
      · rw [MultiXactOffsetPrecedes_iff, hsub] at h2
        have := (MultiXactOffsetPrecedes_iff a b).mpr h2
        rw [h1] at this
        exact this.symm
    · exact (MultiXactOffsetPrecedes_iff _ _).mpr
        (by rw [hsub]; exact (MultiXactOffsetPrecedes_iff a b).mp h1)
  · cases h : MultiXactIdPrecedes a a
    · rfl
    · have := (MultiXactIdPrecedes_iff a a).mp h
      rw [hself] at this
      exact absurd this (by unfold INT32MIN; omega)
  · cases h : MultiXactOffsetPrecedes a a
    · rfl
    · have := (MultiXactOffsetPrecedes_iff a a).mp h
      rw [hself] at this
      exact absurd this (by unfold INT32MIN; omega)

theorem precedes_shift_invariant_irrefl_witness :
    (MultiXactIdPrecedes ((5 + 1) % U32) ((7 + 1) % U32) = MultiXactIdPrecedes 5 7 ∧
      MultiXactOffsetPrecedes ((5 + 1) % U32) ((7 + 1) % U32) = MultiXactOffsetPrecedes 5 7) ∧
    (MultiXactIdPrecedes 5 5 = false ∧ MultiXactOffsetPrecedes 5 5 = false) :=
  precedes_shift_invariant_irrefl 5 7 (by norm_num [U32]) (by norm_num [U32])

/-- Claim C8: the offset-store mapping is an exact div/mod decomposition:
`MultiXactIdToOffsetPage(id) * entriesPerPage + MultiXactIdToOffsetEntry(id) = id`,
where `entriesPerPage = MULTIXACT_OFFSETS_PER_PAGE = BLCKSZ / sizeof(MultiXactOffset)`. -/
theorem offset_page_entry_decomposition (id : Nat) :
    MultiXactIdToOffsetPage id * MULTIXACT_OFFSETS_PER_PAGE +
      MultiXactIdToOffsetEntry id = id ∧
    MULTIXACT_OFFSETS_PER_PAGE = BLCKSZ / 4 := by
  constructor
  · show id / 2048 * 2048 + id % 2048 = id
    omega
  · rfl

/-- Claim C2 as stated is false: with current `nextMXact = 3` and proposed
minimum 5, the current counter circularly precedes the minimum, so the claim
says `nextMXact` is raised to 5 — but `updateMinMulti` is unimplemented in
this source ("not implemented", `exit(1)`), so the call aborts the process
with the counter still at 3; no counter is ever raised. -/
theorem advance_stub_counterexample :
    MultiXactIdPrecedes 3 5 = true ∧
    MultiXactAdvanceNextMXact ⟨3, 3⟩ 5 0 = AdvanceResult.aborted ⟨3, 3⟩ ∧
    (MultiXactAdvanceNextMXact ⟨3, 3⟩ 5 0).state.nextMXact = 3 := by
  refine ⟨rfl, rfl, rfl⟩

/-- Claim C2 (amended): the advance decides with the wraparound-aware
`precedes` whether a counter must be raised, but the raise actions are
unimplemented in this source: whenever `nextMXact` circularly precedes the
given `minMulti` — or, that test failing, `nextOffset` circularly precedes
the given `minMultiOffset` — the call aborts the process without changing
either counter; it returns normally exactly when neither current counter
circularly precedes its given minimum.  In every case the counter state at
termination equals the initial one: a counter is never raised, never
lowered, and never changed. -/
theorem advance_aborts_or_leaves_unchanged (st : MultiXactStateData)
    (minMulti minMultiOffset : Nat) :
    (MultiXactAdvanceNextMXact st minMulti minMultiOffset).state = st ∧
    (MultiXactAdvanceNextMXact st minMulti minMultiOffset = AdvanceResult.ok st ↔
      (MultiXactIdPrecedes st.nextMXact minMulti = false ∧
        MultiXactOffsetPrecedes st.nextOffset minMultiOffset = false)) := by
  unfold MultiXactAdvanceNextMXact updateMinMulti updateMinMultiOffset
  cases h1 : MultiXactIdPrecedes st.nextMXact minMulti
  · cases h2 : MultiXactOffsetPrecedes st.nextOffset minMultiOffset
    · simp [h1, h2, AdvanceResult.state]
    · simp [h1, h2, AdvanceResult.state]
  · simp [h1, AdvanceResult.state]

/-- Claim C6 as stated is false: for `a = 0` (a special, non-normal id) and
`b = 2^31 + 1`, the code takes the plain unsigned comparison branch and
returns true for `precedes`, while the claimed formula `(int32)(a-b) < 0`
yields false (the 32-bit difference is `2^31 - 1`, which is nonnegative as an
`int32`). -/
theorem transactionIdPrecedes_counterexample :
    TransactionIdPrecedes 0 2147483649 = true ∧
    0 ≤ toInt32 (sub32 0 2147483649) := by
  constructor
  · rfl
  · decide

/-- Claim C6 (amended): when both transaction ids are normal (at least
`FirstNormalTransactionId = 3`), `TransactionIdPrecedes(a,b)` equals
`(int32)(a-b) < 0` and `TransactionIdFollowsOrEquals(a,b)` equals
`(int32)(a-b) >= 0`, the same circular-comparison discipline as the
GroupId/MemberOffset comparisons; when either id is special (below 3), plain
unsigned comparison (`a < b`, respectively `a >= b`) is used instead. -/
theorem transactionId_comparison_discipline (a b : Nat) :
    (TransactionIdIsNormal a = true → TransactionIdIsNormal b = true →
      (TransactionIdPrecedes a b = MultiXactIdPrecedes a b ∧
       TransactionIdFollowsOrEquals a b = decide (0 ≤ toInt32 (sub32 a b)))) ∧
    (¬ (TransactionIdIsNormal a = true ∧ TransactionIdIsNormal b = true) →
      (TransactionIdPrecedes a b = decide (a < b) ∧
       TransactionIdFollowsOrEquals a b = decide (b ≤ a))) := by
  constructor
  · intro hna hnb
    unfold TransactionIdPrecedes TransactionIdFollowsOrEquals MultiXactIdPrecedes
    rw [hna, hnb]
    simp
  · intro h
    unfold TransactionIdPrecedes TransactionIdFollowsOrEquals
    have h2 : ¬ TransactionIdIsNormal a = true ∨ ¬ TransactionIdIsNormal b = true := by
      by_cases hA : TransactionIdIsNormal a = true
      · right
        intro hB
        exact h ⟨hA, hB⟩
      · left
        exact hA
    simp only [if_pos h2]
    exact ⟨trivial, trivial⟩

theorem transactionId_comparison_discipline_witness :
    (TransactionIdPrecedes 5 9 = MultiXactIdPrecedes 5 9 ∧
     TransactionIdFollowsOrEquals 5 9 = decide (0 ≤ toInt32 (sub32 5 9))) :=
  (transactionId_comparison_discipline 5 9).1 (by decide) (by decide)

/-- Modelled from the spec: the maximum valid member status,
`MultiXactStatusUpdate`, comes from `access/multixact.h` (not among the given
sources); the status enum runs from for-key-share (0) to update (5). -/
def MultiXactStatusUpdate : Nat := 5

/-- One multixact member: 32-bit transaction id plus status code. -/
structure MultiXactMember where
  xid : Nat
  status : Nat

/-- Update a page map (page number, word index within the page) at one cell. -/
def upd2 (f : Nat → Nat → Nat) (p i v : Nat) : Nat → Nat → Nat :=
  fun q j => if q = p ∧ j = i then v else f q j

/-- Update a per-page flag map at one page. -/
def upd1 (f : Nat → Bool) (p : Nat) (b : Bool) : Nat → Bool :=
  fun q => if q = p then b else f q

/-- Modelled from the spec: one instance of the paged record store (`slru.c`
is not among the given sources; spec section 4.2 gives its contract).  A page
is an array of 32-bit words addressed by word index — every access the write
path performs is a 4-byte-aligned 32-bit load or store, so byte offset `o`
within a page is word index `o / 4`.  `pages` maps a page number to its cached
content and `dirty` is the per-page dirty flag. -/
structure SlruStore where
  pages : Nat → Nat → Nat
  dirty : Nat → Bool

/-- Store a 32-bit word into a cached page (in-place page mutation through the
buffer returned by `SimpleLruReadPage`; reading a resident page does not
change the store state). -/
def storeWrite (st : SlruStore) (p i v : Nat) : SlruStore :=
  ⟨upd2 st.pages p i v, st.dirty⟩

/-- Set the dirty flag of a page (`shared->page_dirty[slotno] = b`). -/
def storeSetDirty (st : SlruStore) (p : Nat) (b : Bool) : SlruStore :=
  ⟨st.pages, upd1 st.dirty p b⟩

/-- Modelled from the spec: `SimpleLruZeroPage` fills the page with zeroes and
marks it valid and dirty (spec section 4.2, `zeroPage`). -/
def SimpleLruZeroPage (st : SlruStore) (p : Nat) : SlruStore :=
  ⟨fun q j => if q = p then 0 else st.pages q j, upd1 st.dirty p true⟩

/-- Modelled from the spec: `SimpleLruWritePage` flushes the page to its
backing file and clears the dirty bit (spec section 4.2, `writePage`). -/
def SimpleLruWritePage (st : SlruStore) (p : Nat) : SlruStore :=
  ⟨st.pages, upd1 st.dirty p false⟩

/-- A 32-bit masked word store: bits selected by `mask` are cleared, then
`bits` is ORed in.  A full-word store is the special case `mask = U32MASK`. -/
structure PageOp where
  page : Nat
  idx : Nat
  mask : Nat
  bits : Nat

/-- Effect of a masked store on one 32-bit word. -/
def applyWord (mask bits v : Nat) : Nat :=
  (v &&& (U32MASK ^^^ mask)) ||| bits

/-- Apply one masked word store to a store, marking the touched page dirty. -/
def applyOp (st : SlruStore) (op : PageOp) : SlruStore :=
  ⟨upd2 st.pages op.page op.idx
      (applyWord op.mask op.bits (st.pages op.page op.idx)),
    upd1 st.dirty op.page true⟩

/-- Apply a list of masked word stores in order. -/
def applyOps (st : SlruStore) (ops : List PageOp) : SlruStore :=
  ops.foldl applyOp st

/-- The two member-store accesses `RecordNewMultiXact` performs for the member
at member offset `offset`: a full-word store of the transaction id at the
member byte offset, and a masked read-modify-write of the packed flags word
that clears the 8-bit status field at the offset's bit shift and ORs in the
new status. -/
def memberOpsFor (offset : Nat) (m : MultiXactMember) : List PageOp :=
  [ ⟨MXOffsetToMemberPage offset, MXOffsetToMemberOffset offset / 4,
      U32MASK, m.xid % U32⟩,
    ⟨MXOffsetToMemberPage offset, MXOffsetToFlagsOffset offset / 4,
      MXACT_MEMBER_XACT_BITMASK <<< MXOffsetToFlagsBitShift offset,
      (m.status <<< MXOffsetToFlagsBitShift offset) % U32⟩ ]

/-- The full list of member-store accesses for a member list starting at
member offset `offset`; an invalid status stops the sequence (the assertion
aborts before the member is stored). -/
def memberOps : Nat → List MultiXactMember → List PageOp
  | _, [] => []
  | offset, m :: rest =>
    if m.status ≤ MultiXactStatusUpdate then
      memberOpsFor offset m ++ memberOps ((offset + 1) % U32) rest
    else []

/-- Result of the member loop of `RecordNewMultiXact`: final member store,
list of member page numbers passed to `SimpleLruReadPage`, and whether the
loop ran to completion (`ok = false` models the `Assert` on an invalid status
aborting the process). -/
structure MemberLoopOut where
  store : SlruStore
  reads : List Nat
  ok : Bool

/-- The member loop of `RecordNewMultiXact` (source lines 232-270): for each
member, after asserting its status is valid, compute the member page, member
byte offset, flags byte offset and flags bit shift of the current member
offset; re-read a member page only when the page number differs from the
previous iteration's (`prev` starts as -1); store the transaction id; replace
the 8-bit status field of the packed flags word by a masked
read-modify-write; mark the page dirty; then advance the member offset by one
(uint32 increment). -/
def recordMembersLoop : Nat → Int → SlruStore → List MultiXactMember → MemberLoopOut
  | _, _, st, [] => ⟨st, [], true⟩
  | offset, prev, st, m :: rest =>
    if m.status ≤ MultiXactStatusUpdate then
      let pageno := MXOffsetToMemberPage offset
      let memberoff := MXOffsetToMemberOffset offset
      let flagsoff := MXOffsetToFlagsOffset offset
      let bshift := MXOffsetToFlagsBitShift offset
      let st1 := storeWrite st pageno (memberoff / 4) (m.xid % U32)
      let flagsval := st1.pages pageno (flagsoff / 4)
      let flagsval2 :=
        (flagsval &&& (U32MASK ^^^ (MXACT_MEMBER_XACT_BITMASK <<< bshift))) |||
          ((m.status <<< bshift) % U32)
      let st2 := storeWrite st1 pageno (flagsoff / 4) flagsval2
      let st3 := storeSetDirty st2 pageno true
      let out := recordMembersLoop ((offset + 1) % U32) (pageno : Int) st3 rest
      ⟨out.store, (if (pageno : Int) = prev then [] else [pageno]) ++ out.reads, out.ok⟩
    else
      ⟨st, [], false⟩

/-- Result of `RecordNewMultiXact`: the two stores after the call, the offset
page read, the member page reads, and whether the call ran to completion. -/
structure RecordOut where
  offStore : SlruStore
  memStore : SlruStore
  offsetReadPage : Nat
  memberReads : List Nat
  ok : Bool

/-- `RecordNewMultiXact(multi, offset, nmembers, members)` (source lines
203-271): resolve `multi`'s offset page and entry, read that page of the
offset store for write, store `offset` into the entry (a 32-bit slot, so word
index equals the entry number), mark the page dirty, then run the member
loop with `prev_pageno = -1`. -/
def RecordNewMultiXact (multi offset : Nat) (members : List MultiXactMember)
    (offSt memSt : SlruStore) : RecordOut :=
  let pageno := MultiXactIdToOffsetPage multi
  let entryno := MultiXactIdToOffsetEntry multi
  let offSt1 := storeWrite offSt pageno entryno (offset % U32)
  let offSt2 := storeSetDirty offSt1 pageno true
  let out := recordMembersLoop offset (-1) memSt members
  ⟨offSt2, out.store, pageno, out.reads, out.ok⟩

/-- Full system state touched by redo: the two SLRU stores, the multixact
counter state, and the global next-transaction-id counter
(`ShmemVariableCache_nextXid`). -/
structure SysState where
  offSt : SlruStore
  memSt : SlruStore
  mxState : MultiXactStateData
  nextXid : Nat

/-- The three multixact log record kinds, plus an unknown-info catch-all
(`xl_multixact_create` carries the creating transaction's id in the record
header `xl_xid`, the new multixact id `mid`, its start offset `moff`, and the
member array). -/
inductive XlogRec where
  | zeroOffPage (pageno : Nat)
  | zeroMemPage (pageno : Nat)
  | createId (xlXid mid moff : Nat) (members : List MultiXactMember)
  | unknownInfo (info : Nat)

/-- Result of replaying one record: `ok` for normal completion, `aborted`
when the process exits (unknown record kind, or an assertion failure inside
`RecordNewMultiXact`); the carried state is the state at termination. -/
inductive RedoResult where
  | ok (s : SysState)
  | aborted (s : SysState)

/-- State at termination of a replay, whether it completed or aborted. -/
def RedoResult.state : RedoResult → SysState
  | .ok s => s
  | .aborted s => s

/-- The circular maximum loop of `multixact_redo` (source lines 351-356):
start from the record's own `xl_xid` and take each member xid that the
running maximum `TransactionIdPrecedes`. -/
def maxXidOf (xlXid : Nat) (xids : List Nat) : Nat :=
  xids.foldl (fun acc x => if TransactionIdPrecedes acc x then x else acc) xlXid

/-- `multixact_redo(lsn, record)` (source lines 301-375).
`XLOG_MULTIXACT_ZERO_OFF_PAGE`: zero the named offset-store page, write it
out immediately (the source then asserts the slot is no longer dirty).
`XLOG_MULTIXACT_ZERO_MEM_PAGE`: the same on the member store.
`XLOG_MULTIXACT_CREATE_ID`: repopulate the pages via `RecordNewMultiXact`,
then call `MultiXactAdvanceNextMXact(mid+1, moff+nmembers)` (uint32
arithmetic); that call aborts the process whenever either counter would have
to be raised (the update functions are unimplemented in this source), in
which case the nextXid code below it is never reached.  Otherwise, if the
circular maximum of the record's `xl_xid` and member xids follows-or-equals
the global `nextXid`, set `nextXid` to one past that maximum
(`TransactionIdAdvance`).  Any other info value is fatal. -/
def multixact_redo (r : XlogRec) (s : SysState) : RedoResult :=
  match r with
  | .zeroOffPage p =>
      .ok ⟨SimpleLruWritePage (SimpleLruZeroPage s.offSt p) p,
        s.memSt, s.mxState, s.nextXid⟩
  | .zeroMemPage p =>
      .ok ⟨s.offSt,
        SimpleLruWritePage (SimpleLruZeroPage s.memSt p) p,
        s.mxState, s.nextXid⟩
  | .createId xlXid mid moff members =>
      let out := RecordNewMultiXact mid moff members s.offSt s.memSt
      if out.ok then
        match MultiXactAdvanceNextMXact s.mxState ((mid + 1) % U32)
          ((moff + members.length) % U32) with
        | .aborted mx => .aborted ⟨out.offStore, out.memStore, mx, s.nextXid⟩
        | .ok mx =>
          let maxXid := maxXidOf xlXid (members.map MultiXactMember.xid)
          let nx := if TransactionIdFollowsOrEquals maxXid s.nextXid then
            TransactionIdAdvance maxXid else s.nextXid
          .ok ⟨out.offStore, out.memStore, mx, nx⟩
      else
        .aborted ⟨out.offStore, out.memStore, s.mxState, s.nextXid⟩
  | .unknownInfo _ => .aborted s

theorem SlruStore.ext2 (s t : SlruStore) (hp : s.pages = t.pages)
    (hd : s.dirty = t.dirty) : s = t := by
  cases s
  cases t
  cases hp
  cases hd
  rfl

theorem applyWord_full (b v : Nat) : applyWord U32MASK b v = b := by
  unfold applyWord
  rw [Nat.xor_self, Nat.and_zero, Nat.zero_or]

theorem upd1_upd1 (f : Nat → Bool) (p : Nat) (a b : Bool) :
    upd1 (upd1 f p a) p b = upd1 f p b := by
  funext q
  unfold upd1
  by_cases h : q = p <;> simp [h]

/-- A full-word store is the `mask = U32MASK` masked store. -/
theorem applyOp_full (st : SlruStore) (p i b : Nat) :
    applyOp st ⟨p, i, U32MASK, b⟩ = ⟨upd2 st.pages p i b, upd1 st.dirty p true⟩ := by
  simp [applyOp, applyWord_full]

/-- One iteration of the member loop equals applying that member's two masked
word stores. -/
theorem memberStep_eq_ops (st : SlruStore) (offset : Nat) (m : MultiXactMember) :
    storeSetDirty
      (storeWrite
        (storeWrite st (MXOffsetToMemberPage offset)
          (MXOffsetToMemberOffset offset / 4) (m.xid % U32))
        (MXOffsetToMemberPage offset) (MXOffsetToFlagsOffset offset / 4)
        (((storeWrite st (MXOffsetToMemberPage offset)
            (MXOffsetToMemberOffset offset / 4) (m.xid % U32)).pages
              (MXOffsetToMemberPage offset) (MXOffsetToFlagsOffset offset / 4) &&&
            (U32MASK ^^^ (MXACT_MEMBER_XACT_BITMASK <<< MXOffsetToFlagsBitShift offset))) |||
          ((m.status <<< MXOffsetToFlagsBitShift offset) % U32)))
      (MXOffsetToMemberPage offset) true =
    applyOps st (memberOpsFor offset m) := by
  unfold applyOps memberOpsFor
  simp only [List.foldl]
  rw [applyOp_full]
  apply SlruStore.ext2
  · rfl
  · exact (upd1_upd1 st.dirty (MXOffsetToMemberPage offset) true true).symm

theorem applyOps_append (st : SlruStore) (ops1 ops2 : List PageOp) :
    applyOps st (ops1 ++ ops2) = applyOps (applyOps st ops1) ops2 :=
  List.foldl_append applyOp st ops1 ops2

/-- The member loop is the in-order application of the member op list. -/
theorem loop_store_eq_ops (ms : List MultiXactMember) :
    ∀ (offset : Nat) (prev : Int) (st : SlruStore),
      (recordMembersLoop offset prev st ms).store = applyOps st (memberOps offset ms) := by
  induction ms with
  | nil => intro offset prev st; rfl
  | cons m rest ih =>
    intro offset prev st
    unfold recordMembersLoop memberOps
    by_cases hv : m.status ≤ MultiXactStatusUpdate
    · rw [if_pos hv, if_pos hv]
      simp only []
      rw [ih, applyOps_append, memberStep_eq_ops]
    · rw [if_neg hv, if_neg hv]
      rfl

/-- The member loop completes exactly when every member status is valid. -/
theorem loop_ok_iff (ms : List MultiXactMember) :
    ∀ (offset : Nat) (prev : Int) (st : SlruStore),
      (recordMembersLoop offset prev st ms).ok =
        ms.all (fun m => m.status ≤ MultiXactStatusUpdate) := by
  induction ms with
  | nil => intro offset prev st; rfl
  | cons m rest ih =>
    intro offset prev st
    unfold recordMembersLoop
    rw [List.all_cons]
    by_cases hv : m.status ≤ MultiXactStatusUpdate
    · rw [if_pos hv]
      simp only []
      rw [ih]
      simp [hv]
    · rw [if_neg hv]
      simp [hv]

/-- Whether any op in the list touches page `p`. -/
def opsTouch (ops : List PageOp) (p : Nat) : Bool :=
  ops.any (fun op => op.page = p)

theorem applyOps_dirty (ops : List PageOp) :
    ∀ (st : SlruStore) (p : Nat),
      (applyOps st ops).dirty p = (st.dirty p || opsTouch ops p) := by
  induction ops with
  | nil => intro st p; simp [applyOps, opsTouch]
  | cons op rest ih =>
    intro st p
    have hstep : applyOps st (op :: rest) = applyOps (applyOp st op) rest := rfl
    rw [hstep, ih]
    unfold opsTouch
    rw [List.any_cons]
    unfold applyOp
    simp only []
    unfold upd1
    by_cases h : p = op.page
    · simp [h]
    · have h2 : ¬ op.page = p := fun hh => h hh.symm
      simp [h, h2]

/-- Each bit of each page cell after an op list is either determined by the
op list alone or untouched by it. -/
theorem applyOps_bit_cases (ops : List PageOp) (p i j : Nat) :
    (∀ s t : SlruStore,
        ((applyOps s ops).pages p i).testBit j = ((applyOps t ops).pages p i).testBit j) ∨
    (∀ s : SlruStore, ((applyOps s ops).pages p i).testBit j = (s.pages p i).testBit j) := by
  induction ops with
  | nil => right; intro s; rfl
  | cons op rest ih =>
    have hstep : ∀ s : SlruStore, applyOps s (op :: rest) = applyOps (applyOp s op) rest :=
      fun s => rfl
    rcases ih with hL | hR
    · left
      intro s t
      rw [hstep, hstep]
      exact hL _ _
    · by_cases hpi : p = op.page ∧ i = op.idx
      · have hcell : ∀ s : SlruStore, (applyOp s op).pages p i =
            applyWord op.mask op.bits (s.pages p i) := by
          intro s
          obtain ⟨h1, h2⟩ := hpi
          simp [applyOp, upd2, h1, h2]
        cases hb : op.bits.testBit j
        · cases hc : (U32MASK ^^^ op.mask).testBit j
          · left
            intro s t
            rw [hstep, hstep, hR, hR, hcell, hcell]
            unfold applyWord
            rw [Nat.testBit_or, Nat.testBit_or, Nat.testBit_and, Nat.testBit_and, hb, hc]
            simp
          · right
            intro s
            rw [hstep, hR, hcell]
            unfold applyWord
            rw [Nat.testBit_or, Nat.testBit_and, hb, hc]
            simp
        · left
          intro s t
          rw [hstep, hstep, hR, hR, hcell, hcell]
          unfold applyWord
          rw [Nat.testBit_or, Nat.testBit_or, hb]
          simp
      · right
        intro s
        rw [hstep, hR]
        have : (applyOp s op).pages p i = s.pages p i := by
          simp only [applyOp, upd2]
          rw [if_neg hpi]
        rw [this]

/-- Applying an op list twice is the same as applying it once. -/
theorem applyOps_idem (ops : List PageOp) (st : SlruStore) :
    applyOps (applyOps st ops) ops = applyOps st ops := by
  apply SlruStore.ext2
  · funext p i
    apply Nat.eq_of_testBit_eq
    intro j
    rcases applyOps_bit_cases ops p i j with hL | hR
    · exact hL _ _
    · rw [hR]
  · funext p
    rw [applyOps_dirty, applyOps_dirty]
    cases st.dirty p <;> cases opsTouch ops p <;> rfl

theorem upd2_upd2_same (f : Nat → Nat → Nat) (p i v : Nat) :
    upd2 (upd2 f p i v) p i v = upd2 f p i v := by
  funext q j
  unfold upd2
  by_cases h : q = p ∧ j = i <;> simp [h]

theorem record_offStore (multi offset : Nat) (ms : List MultiXactMember)
    (offSt memSt : SlruStore) :
    (RecordNewMultiXact multi offset ms offSt memSt).offStore =
      storeSetDirty
        (storeWrite offSt (MultiXactIdToOffsetPage multi)
          (MultiXactIdToOffsetEntry multi) (offset % U32))
        (MultiXactIdToOffsetPage multi) true := rfl

theorem record_memStore (multi offset : Nat) (ms : List MultiXactMember)
    (offSt memSt : SlruStore) :
    (RecordNewMultiXact multi offset ms offSt memSt).memStore =
      applyOps memSt (memberOps offset ms) :=
  loop_store_eq_ops ms offset (-1) memSt

theorem record_ok_iff (multi offset : Nat) (ms : List MultiXactMember)
    (offSt memSt : SlruStore) :
    (RecordNewMultiXact multi offset ms offSt memSt).ok =
      ms.all (fun m => m.status ≤ MultiXactStatusUpdate) :=
  loop_ok_iff ms offset (-1) memSt

/-- Replaying a create record leaves in the state exactly the stores produced
by `RecordNewMultiXact`, whether or not the replay completed. -/
theorem redo_create_stores (xlXid mid moff : Nat) (ms : List MultiXactMember)
    (s : SysState) :
    (multixact_redo (.createId xlXid mid moff ms) s).state.offSt =
      (RecordNewMultiXact mid moff ms s.offSt s.memSt).offStore ∧
    (multixact_redo (.createId xlXid mid moff ms) s).state.memSt =
      (RecordNewMultiXact mid moff ms s.offSt s.memSt).memStore := by
  unfold multixact_redo
  cases h : (RecordNewMultiXact mid moff ms s.offSt s.memSt).ok
  · simp [h, RedoResult.state]
  · cases hA : MultiXactAdvanceNextMXact s.mxState ((mid + 1) % U32)
      ((moff + ms.length) % U32) <;>
      simp [h, hA, RedoResult.state]

/-- Claim C3: applying the same CreateGroup record twice through the redo
replayer's page-repopulation step is idempotent: the offset-store and
member-store page content (indeed the full cached stores, dirty flags
included) after the second application equal those after the first. -/
theorem create_redo_idempotent (xlXid mid moff : Nat) (ms : List MultiXactMember)
    (s0 : SysState) :
    (multixact_redo (.createId xlXid mid moff ms)
        (multixact_redo (.createId xlXid mid moff ms) s0).state).state.offSt =
      (multixact_redo (.createId xlXid mid moff ms) s0).state.offSt ∧
    (multixact_redo (.createId xlXid mid moff ms)
        (multixact_redo (.createId xlXid mid moff ms) s0).state).state.memSt =
      (multixact_redo (.createId xlXid mid moff ms) s0).state.memSt := by
  obtain ⟨ho1, hm1⟩ := redo_create_stores xlXid mid moff ms s0
  obtain ⟨ho2, hm2⟩ := redo_create_stores xlXid mid moff ms
    (multixact_redo (.createId xlXid mid moff ms) s0).state
  constructor
  · rw [ho2, ho1, record_offStore, record_offStore]
    apply SlruStore.ext2
    · show upd2 (upd2 s0.offSt.pages _ _ _) _ _ _ = upd2 s0.offSt.pages _ _ _
      exact upd2_upd2_same s0.offSt.pages _ _ _
    · show upd1 (upd1 s0.offSt.dirty _ true) _ true = upd1 s0.offSt.dirty _ true
      exact upd1_upd1 s0.offSt.dirty _ true true
  · rw [hm2, hm1, record_memStore, record_memStore]
    exact applyOps_idem (memberOps moff ms) s0.memSt

/-- Claim C7 as stated is false: with an invalid status (6, above the maximum
update status 5) in the member list, the write path does not reject the call
with a caller-visible error before producing page content; it aborts on the
assertion (`ok = false` models the process abort), and by that time the
group's offset-store entry (entry 5 of page 0 for id 5) has already been
written with the start offset 100 and the page marked dirty, and the first
(valid) member has already been stored. -/
theorem invalid_status_counterexample :
    (RecordNewMultiXact 5 100
      [⟨10, 0⟩, ⟨11, 6⟩] ⟨fun _ _ => 0, fun _ => false⟩ ⟨fun _ _ => 0, fun _ => false⟩).ok
        = false ∧
    (RecordNewMultiXact 5 100
      [⟨10, 0⟩, ⟨11, 6⟩] ⟨fun _ _ => 0, fun _ => false⟩ ⟨fun _ _ => 0, fun _ => false⟩).offStore.pages
        0 5 = 100 ∧
    (RecordNewMultiXact 5 100
      [⟨10, 0⟩, ⟨11, 6⟩] ⟨fun _ _ => 0, fun _ => false⟩ ⟨fun _ _ => 0, fun _ => false⟩).offStore.dirty
        0 = true ∧
    (RecordNewMultiXact 5 100
      [⟨10, 0⟩, ⟨11, 6⟩] ⟨fun _ _ => 0, fun _ => false⟩ ⟨fun _ _ => 0, fun _ => false⟩).memStore.pages
        0 (MXOffsetToMemberOffset 100 / 4) = 10 := by
  refine ⟨rfl, rfl, rfl, rfl⟩

/-- Claim C7 (amended): a member whose status code exceeds the maximum valid
("update") status code makes the write path fail its per-member assertion and
abort the process (not a caller-visible error return); the check happens
inside the member loop, after the group's offset-store entry has been written
and its page marked dirty, and the members preceding the first invalid one
have also been stored; the invalid member itself and everything after it are
not stored. -/
theorem invalid_status_aborts_after_offset_write (multi offset : Nat)
    (ms : List MultiXactMember) (offSt memSt : SlruStore)
    (hbad : ∃ m ∈ ms, ¬ m.status ≤ MultiXactStatusUpdate) :
    (RecordNewMultiXact multi offset ms offSt memSt).ok = false ∧
    (RecordNewMultiXact multi offset ms offSt memSt).offStore =
      storeSetDirty
        (storeWrite offSt (MultiXactIdToOffsetPage multi)
          (MultiXactIdToOffsetEntry multi) (offset % U32))
        (MultiXactIdToOffsetPage multi) true ∧
    (RecordNewMultiXact multi offset ms offSt memSt).memStore =
      applyOps memSt (memberOps offset ms) := by
  refine ⟨?_, record_offStore multi offset ms offSt memSt,
    record_memStore multi offset ms offSt memSt⟩
  rw [record_ok_iff]
  obtain ⟨m, hmem, hm⟩ := hbad
  have : ¬ ms.all (fun m => m.status ≤ MultiXactStatusUpdate) = true := by
    intro hall
    exact hm (by simpa using (List.all_eq_true.mp hall m hmem))
  cases h : ms.all (fun m => m.status ≤ MultiXactStatusUpdate)
  · rfl
  · exact absurd h this

theorem invalid_status_aborts_after_offset_write_witness :
    (RecordNewMultiXact 7 200 [⟨12, 9⟩] ⟨fun _ _ => 0, fun _ => false⟩
        ⟨fun _ _ => 0, fun _ => false⟩).ok = false ∧
    (RecordNewMultiXact 7 200 [⟨12, 9⟩] ⟨fun _ _ => 0, fun _ => false⟩
        ⟨fun _ _ => 0, fun _ => false⟩).offStore =
      storeSetDirty
        (storeWrite ⟨fun _ _ => 0, fun _ => false⟩ (MultiXactIdToOffsetPage 7)
          (MultiXactIdToOffsetEntry 7) (200 % U32))
        (MultiXactIdToOffsetPage 7) true ∧
    (RecordNewMultiXact 7 200 [⟨12, 9⟩] ⟨fun _ _ => 0, fun _ => false⟩
        ⟨fun _ _ => 0, fun _ => false⟩).memStore =
      applyOps ⟨fun _ _ => 0, fun _ => false⟩ (memberOps 200 [⟨12, 9⟩]) :=
  invalid_status_aborts_after_offset_write 7 200 [⟨12, 9⟩]
    ⟨fun _ _ => 0, fun _ => false⟩ ⟨fun _ _ => 0, fun _ => false⟩
    ⟨⟨12, 9⟩, by simp, by decide⟩

/-- The member page of each member in order: element `i` is the page of
member offset `(offset + i) mod 2^32`. -/
def memberPageSeq (offset n : Nat) : List Nat :=
  (List.range n).map (fun i => MXOffsetToMemberPage ((offset + i) % U32))

/-- Keep a page number only when it differs from the previous one (the
previous page number before the first iteration is -1). -/
def dedupConsec : Int → List Nat → List Nat
  | _, [] => []
  | prev, p :: ps => (if (p : Int) = prev then [] else [p]) ++ dedupConsec (p : Int) ps

/-- The write path's member-store accesses as the claim states them: the
member at index `i` (counting from the head) contributes its transaction-id
store and masked status read-modify-write at member offset
`(offset + i) mod 2^32`. -/
def memberWritesSpec : Nat → List MultiXactMember → List PageOp
  | _, [] => []
  | offset, m :: rest => memberOpsFor (offset % U32) m ++ memberWritesSpec (offset + 1) rest

theorem memberWritesSpec_congr (ms : List MultiXactMember) :
    ∀ a b : Nat, a % U32 = b % U32 →
      memberWritesSpec a ms = memberWritesSpec b ms := by
  induction ms with
  | nil => intro a b h; rfl
  | cons m rest ih =>
    intro a b h
    unfold memberWritesSpec
    rw [h, ih (a + 1) (b + 1) (by unfold U32 at *; omega)]

theorem memberOps_eq_spec (ms : List MultiXactMember) :
    ∀ offset : Nat, offset < U32 →
      (∀ m ∈ ms, m.status ≤ MultiXactStatusUpdate) →
      memberOps offset ms = memberWritesSpec offset ms := by
  induction ms with
  | nil => intro offset h hv; rfl
  | cons m rest ih =>
    intro offset hoff hv
    unfold memberOps memberWritesSpec
    rw [if_pos (hv m (List.mem_cons_self m rest))]
    rw [Nat.mod_eq_of_lt hoff]
    rw [ih ((offset + 1) % U32) (Nat.mod_lt _ (by unfold U32; omega))
      (fun x hx => hv x (List.mem_cons_of_mem m hx))]
    rw [memberWritesSpec_congr rest ((offset + 1) % U32) (offset + 1)
      (by unfold U32; omega)]

theorem loop_reads_eq (ms : List MultiXactMember) :
    ∀ (offset : Nat) (prev : Int) (st : SlruStore), offset < U32 →
      (∀ m ∈ ms, m.status ≤ MultiXactStatusUpdate) →
      (recordMembersLoop offset prev st ms).reads =
        dedupConsec prev (memberPageSeq offset ms.length) := by
  induction ms with
  | nil => intro offset prev st hoff hv; rfl
  | cons m rest ih =>
    intro offset prev st hoff hv
    unfold recordMembersLoop
    rw [if_pos (hv m (List.mem_cons_self m rest))]
    simp only []
    have hseq : memberPageSeq offset (m :: rest).length =
        MXOffsetToMemberPage offset ::
          memberPageSeq ((offset + 1) % U32) rest.length := by
      unfold memberPageSeq
      rw [List.length_cons, List.range_succ_eq_map, List.map_cons, List.map_map]
      congr 1
      · rw [Nat.add_zero, Nat.mod_eq_of_lt hoff]
      · apply List.map_eq_map_iff.mpr
        intro i hi
        show MXOffsetToMemberPage ((offset + (i + 1)) % U32) =
          MXOffsetToMemberPage (((offset + 1) % U32 + i) % U32)
        congr 1
        unfold U32
        omega
    rw [hseq]
    unfold dedupConsec
    rw [ih ((offset + 1) % U32) (MXOffsetToMemberPage offset : Int) _
      (Nat.mod_lt _ (by unfold U32; omega))
      (fun x hx => hv x (List.mem_cons_of_mem m hx))]

/-- Claim C1: `RecordNewMultiXact(id, startOffset, members)` writes
`startOffset` into offset-store entry `id mod entriesPerPage` of page
`id div entriesPerPage` and marks that page dirty; then for each member `i`
in order it stores `members[i].xid` at the member byte offset of member
offset `startOffset+i` and replaces exactly the 8-bit status field at that
offset's bit shift in the packed flags word by a masked read-modify-write
(clear the field's bits, OR in the new status), marking each touched member
page dirty (these are the ops of `memberWritesSpec`, whose member `i` works
at member offset `(startOffset+i) mod 2^32`); and it reads a member page
exactly when the computed page number differs from the previous iteration's
(previous page -1 initially), per `dedupConsec` over the page sequence. -/
theorem record_new_group_behaviour (multi offset : Nat)
    (ms : List MultiXactMember) (offSt memSt : SlruStore)
    (hoff : offset < U32)
    (hv : ∀ m ∈ ms, m.status ≤ MultiXactStatusUpdate) :
    (RecordNewMultiXact multi offset ms offSt memSt).ok = true ∧
    (RecordNewMultiXact multi offset ms offSt memSt).offStore =
      storeSetDirty
        (storeWrite offSt (MultiXactIdToOffsetPage multi)
          (MultiXactIdToOffsetEntry multi) (offset % U32))
        (MultiXactIdToOffsetPage multi) true ∧
    (RecordNewMultiXact multi offset ms offSt memSt).memStore =
      applyOps memSt (memberWritesSpec offset ms) ∧
    (RecordNewMultiXact multi offset ms offSt memSt).offsetReadPage =
      MultiXactIdToOffsetPage multi ∧
    (RecordNewMultiXact multi offset ms offSt memSt).memberReads =
      dedupConsec (-1) (memberPageSeq offset ms.length) := by
  refine ⟨?_, record_offStore multi offset ms offSt memSt, ?_, rfl, ?_⟩
  · rw [record_ok_iff]
    exact List.all_eq_true.mpr (fun m hm => decide_eq_true (hv m hm))
  · rw [record_memStore, memberOps_eq_spec ms offset hoff hv]
  · exact loop_reads_eq ms offset (-1) memSt hoff hv

theorem record_new_group_behaviour_witness :
    (RecordNewMultiXact 3 1635 [⟨10, 1⟩, ⟨11, 2⟩]
      ⟨fun _ _ => 0, fun _ => false⟩ ⟨fun _ _ => 0, fun _ => false⟩).ok = true ∧
    (RecordNewMultiXact 3 1635 [⟨10, 1⟩, ⟨11, 2⟩]
      ⟨fun _ _ => 0, fun _ => false⟩ ⟨fun _ _ => 0, fun _ => false⟩).offStore =
      storeSetDirty
        (storeWrite ⟨fun _ _ => 0, fun _ => false⟩ (MultiXactIdToOffsetPage 3)
          (MultiXactIdToOffsetEntry 3) (1635 % U32))
        (MultiXactIdToOffsetPage 3) true ∧
    (RecordNewMultiXact 3 1635 [⟨10, 1⟩, ⟨11, 2⟩]
      ⟨fun _ _ => 0, fun _ => false⟩ ⟨fun _ _ => 0, fun _ => false⟩).memStore =
      applyOps ⟨fun _ _ => 0, fun _ => false⟩ (memberWritesSpec 1635 [⟨10, 1⟩, ⟨11, 2⟩]) ∧
    (RecordNewMultiXact 3 1635 [⟨10, 1⟩, ⟨11, 2⟩]
      ⟨fun _ _ => 0, fun _ => false⟩ ⟨fun _ _ => 0, fun _ => false⟩).offsetReadPage =
      MultiXactIdToOffsetPage 3 ∧
    (RecordNewMultiXact 3 1635 [⟨10, 1⟩, ⟨11, 2⟩]
      ⟨fun _ _ => 0, fun _ => false⟩ ⟨fun _ _ => 0, fun _ => false⟩).memberReads =
      dedupConsec (-1) (memberPageSeq 1635 2) :=
  record_new_group_behaviour 3 1635 [⟨10, 1⟩, ⟨11, 2⟩]
    ⟨fun _ _ => 0, fun _ => false⟩ ⟨fun _ _ => 0, fun _ => false⟩
    (by unfold U32; omega) (by decide)

theorem flagsOffset_le (off : Nat) : MXOffsetToFlagsOffset off ≤ 8160 := by
  show ((off / 4) % 409) * 20 ≤ 8160
  omega

theorem memberOffset_le (off : Nat) : MXOffsetToMemberOffset off ≤ 8176 := by
  show ((off / 4) % 409) * 20 + 4 + (off % 4) * 4 ≤ 8176
  omega

/-- Claim C9: the member-layout arithmetic stays inside one page: for every
32-bit member offset, the 4-byte flags word and the 4-byte transaction id
both end at or before `BLCKSZ`, and consequently every word access in the
op list generated by the write path's member loop (`memberOps`, which the
loop applies to the page `MXOffsetToMemberPage` of the member offset it is
processing) lies within the page buffer. -/
theorem member_layout_within_page (off : Nat) (_hoff : off < U32) :
    (MXOffsetToFlagsOffset off + MULTIXACT_FLAGBYTES_PER_GROUP ≤ BLCKSZ ∧
      MXOffsetToMemberOffset off + 4 ≤ BLCKSZ) ∧
    (∀ (startOffset : Nat) (ms : List MultiXactMember) (op : PageOp),
      op ∈ memberOps startOffset ms → 4 * op.idx + 4 ≤ BLCKSZ) := by
  constructor
  · constructor
    · have h := flagsOffset_le off
      show MXOffsetToFlagsOffset off + 4 ≤ 8192
      omega
    · have h := memberOffset_le off
      show MXOffsetToMemberOffset off + 4 ≤ 8192
      omega
  · intro startOffset ms
    induction ms generalizing startOffset with
    | nil => intro op hop; exact absurd hop (List.not_mem_nil op)
    | cons m rest ih =>
      intro op hop
      unfold memberOps at hop
      by_cases hv : m.status ≤ MultiXactStatusUpdate
      · rw [if_pos hv] at hop
        rcases List.mem_append.mp hop with hin | hin
        · unfold memberOpsFor at hin
          rcases List.mem_cons.mp hin with heq | hin2
          · subst heq
            have h := memberOffset_le startOffset
            show 4 * (MXOffsetToMemberOffset startOffset / 4) + 4 ≤ 8192
            omega
          · rcases List.mem_cons.mp hin2 with heq | hin3
            · subst heq
              have h := flagsOffset_le startOffset
              show 4 * (MXOffsetToFlagsOffset startOffset / 4) + 4 ≤ 8192
              omega
            · exact absurd hin3 (List.not_mem_nil op)
        · exact ih ((startOffset + 1) % U32) op hin
      · rw [if_neg hv] at hop
        exact absurd hop (List.not_mem_nil op)

theorem member_layout_within_page_witness :
    (MXOffsetToFlagsOffset 1000000 + MULTIXACT_FLAGBYTES_PER_GROUP ≤ BLCKSZ ∧
      MXOffsetToMemberOffset 1000000 + 4 ≤ BLCKSZ) ∧
    (∀ (startOffset : Nat) (ms : List MultiXactMember) (op : PageOp),
      op ∈ memberOps startOffset ms → 4 * op.idx + 4 ≤ BLCKSZ) :=
  member_layout_within_page 1000000 (by unfold U32; omega)

/-- Claim C10: replaying a ZeroOffsetPage (resp. ZeroMemberPage) record
zeroes exactly the named page of the offset (resp. member) store, writes it
out leaving its slot non-dirty, leaves every other page and dirty flag of
that store and the whole other store unchanged, and leaves `nextMXact`,
`nextOffset` and the global `nextXid` counters unchanged — so of the three
record kinds only CreateGroup replay can modify any counter. -/
theorem zero_page_redo_frame (p : Nat) (s : SysState) :
    ((∀ i, (multixact_redo (.zeroOffPage p) s).state.offSt.pages p i = 0) ∧
      (multixact_redo (.zeroOffPage p) s).state.offSt.dirty p = false ∧
      (∀ q, q ≠ p →
        (∀ i, (multixact_redo (.zeroOffPage p) s).state.offSt.pages q i =
          s.offSt.pages q i) ∧
        (multixact_redo (.zeroOffPage p) s).state.offSt.dirty q = s.offSt.dirty q) ∧
      (multixact_redo (.zeroOffPage p) s).state.memSt = s.memSt ∧
      (multixact_redo (.zeroOffPage p) s).state.mxState = s.mxState ∧
      (multixact_redo (.zeroOffPage p) s).state.nextXid = s.nextXid) ∧
    ((∀ i, (multixact_redo (.zeroMemPage p) s).state.memSt.pages p i = 0) ∧
      (multixact_redo (.zeroMemPage p) s).state.memSt.dirty p = false ∧
      (∀ q, q ≠ p →
        (∀ i, (multixact_redo (.zeroMemPage p) s).state.memSt.pages q i =
          s.memSt.pages q i) ∧
        (multixact_redo (.zeroMemPage p) s).state.memSt.dirty q = s.memSt.dirty q) ∧
      (multixact_redo (.zeroMemPage p) s).state.offSt = s.offSt ∧
      (multixact_redo (.zeroMemPage p) s).state.mxState = s.mxState ∧
      (multixact_redo (.zeroMemPage p) s).state.nextXid = s.nextXid) := by
  unfold multixact_redo RedoResult.state SimpleLruWritePage SimpleLruZeroPage
  refine ⟨⟨?_, ?_, ?_, rfl, rfl, rfl⟩, ⟨?_, ?_, ?_, rfl, rfl, rfl⟩⟩
  · intro i
    simp [upd1]
  · simp [upd1]
  · intro q hq
    constructor
    · intro i
      simp [upd1, hq]
    · simp [upd1, hq]
  · intro i
    simp [upd1]
  · simp [upd1]
  · intro q hq
    constructor
    · intro i
      simp [upd1, hq]
    · simp [upd1, hq]

theorem zero_page_redo_frame_witness :
    (∀ i, (multixact_redo (.zeroOffPage 0)
      ⟨⟨fun _ _ => 7, fun _ => true⟩, ⟨fun _ _ => 9, fun _ => true⟩,
        ⟨1, 2⟩, 3⟩).state.offSt.pages 0 i = 0) ∧
    (multixact_redo (.zeroOffPage 0)
      ⟨⟨fun _ _ => 7, fun _ => true⟩, ⟨fun _ _ => 9, fun _ => true⟩,
        ⟨1, 2⟩, 3⟩).state.offSt.pages 1 0 = 7 := by
  have h := zero_page_redo_frame 0
    ⟨⟨fun _ _ => 7, fun _ => true⟩, ⟨fun _ _ => 9, fun _ => true⟩, ⟨1, 2⟩, 3⟩
  exact ⟨h.1.1, ((h.1.2.2.1 1 (by decide)).1 0).trans rfl⟩

theorem tidPrecedes_normal (a b : Nat) (ha : TransactionIdIsNormal a = true)
    (hb : TransactionIdIsNormal b = true) :
    TransactionIdPrecedes a b = decide (toInt32 (sub32 a b) < 0) := by
  unfold TransactionIdPrecedes
  rw [ha, hb]
  simp

theorem tidFoe_normal (a b : Nat) (ha : TransactionIdIsNormal a = true)
    (hb : TransactionIdIsNormal b = true) :
    TransactionIdFollowsOrEquals a b = decide (0 ≤ toInt32 (sub32 a b)) := by
  unfold TransactionIdFollowsOrEquals
  rw [ha, hb]
  simp

theorem isNormal_iff (x : Nat) : TransactionIdIsNormal x = true ↔ 3 ≤ x := by
  unfold TransactionIdIsNormal FirstNormalTransactionId
  exact decide_eq_true_iff

theorem toInt32_nonneg_iff (n : Nat) : 0 ≤ toInt32 n ↔ n % U32 < INT32MIN := by
  constructor
  · intro h
    by_contra hc
    have := (toInt32_neg_iff n).mpr (by omega)
    omega
  · intro h
    by_contra hc
    have := (toInt32_neg_iff n).mp (by omega)
    omega

/-- Within a window of radius below 2^31 anchored at `B`, `precedes` between
normal ids is comparison of positions inside the window. -/
theorem win_precedes (B W a b : Nat) (hW : W ≤ 2147483647) (_hB : B < U32)
    (_ha : a < U32) (_hb : b < U32) (hna : 3 ≤ a) (hnb : 3 ≤ b)
    (hpa : sub32 a B ≤ W) (hpb : sub32 b B ≤ W) :
    TransactionIdPrecedes a b = decide (sub32 a B < sub32 b B) := by
  rw [tidPrecedes_normal a b ((isNormal_iff a).mpr hna) ((isNormal_iff b).mpr hnb)]
  have hiff : toInt32 (sub32 a b) < 0 ↔ sub32 a B < sub32 b B := by
    rw [toInt32_neg_iff, Nat.mod_eq_of_lt (sub32_lt a b)]
    unfold sub32 INT32MIN U32 at *
    omega
  cases h : decide (sub32 a B < sub32 b B)
  · have := of_decide_eq_false h
    exact decide_eq_false (fun hlt => this (hiff.mp hlt))
  · exact decide_eq_true (hiff.mpr (of_decide_eq_true h))

/-- Within a window, `followsOrEquals` between normal ids is reverse
comparison of positions inside the window. -/
theorem win_foe (B W a b : Nat) (hW : W ≤ 2147483647) (_hB : B < U32)
    (_ha : a < U32) (_hb : b < U32) (hna : 3 ≤ a) (hnb : 3 ≤ b)
    (hpa : sub32 a B ≤ W) (hpb : sub32 b B ≤ W) :
    TransactionIdFollowsOrEquals a b = decide (sub32 b B ≤ sub32 a B) := by
  rw [tidFoe_normal a b ((isNormal_iff a).mpr hna) ((isNormal_iff b).mpr hnb)]
  have hiff : 0 ≤ toInt32 (sub32 a b) ↔ sub32 b B ≤ sub32 a B := by
    rw [toInt32_nonneg_iff, Nat.mod_eq_of_lt (sub32_lt a b)]
    unfold sub32 INT32MIN U32 at *
    omega
  cases h : decide (sub32 b B ≤ sub32 a B)
  · have := of_decide_eq_false h
    exact decide_eq_false (fun hle => this (hiff.mp hle))
  · exact decide_eq_true (hiff.mpr (of_decide_eq_true h))

/-- The window radius under which the redo replayer's nextXid advancement is
guaranteed to leave the counter circularly after every id it saw: 2^31 - 5
(room for the increment and for skipping the three reserved ids). -/
def XID_WINDOW : Nat := 2147483643

/-- Inside a window, the fold of `maxXidOf` lands on a list element (or the
seed) whose window position dominates the seed's and every element's. -/
theorem maxXidOf_window (B W : Nat) (hW : W ≤ 2147483643) (hB : B < U32) :
    ∀ (xids : List Nat) (acc : Nat),
      (3 ≤ acc ∧ acc < U32 ∧ sub32 acc B ≤ W) →
      (∀ x ∈ xids, 3 ≤ x ∧ x < U32 ∧ sub32 x B ≤ W) →
      (maxXidOf acc xids ∈ acc :: xids ∧
        sub32 acc B ≤ sub32 (maxXidOf acc xids) B ∧
        ∀ x ∈ xids, sub32 x B ≤ sub32 (maxXidOf acc xids) B) := by
  intro xids
  induction xids with
  | nil =>
    intro acc hacc hall
    exact ⟨List.mem_cons_self _ _, Nat.le_refl _, fun x hx => absurd hx (List.not_mem_nil x)⟩
  | cons y rest ih =>
    intro acc hacc hall
    have hy := hall y (List.mem_cons_self y rest)
    have hrest : ∀ x ∈ rest, 3 ≤ x ∧ x < U32 ∧ sub32 x B ≤ W :=
      fun x hx => hall x (List.mem_cons_of_mem y hx)
    have hstep : maxXidOf acc (y :: rest) =
        maxXidOf (if TransactionIdPrecedes acc y then y else acc) rest := rfl
    have hcmp : TransactionIdPrecedes acc y = decide (sub32 acc B < sub32 y B) :=
      win_precedes B W acc y (by omega) hB hacc.2.1 hy.2.1 hacc.1 hy.1 hacc.2.2 hy.2.2
    by_cases hlt : sub32 acc B < sub32 y B
    · have hsel : (if TransactionIdPrecedes acc y then y else acc) = y := by
        rw [hcmp, if_pos (decide_eq_true hlt)]
      rw [hstep, hsel]
      obtain ⟨hmem, hdom, hallrest⟩ := ih y hy hrest
      refine ⟨List.mem_cons_of_mem acc hmem, ?_, ?_⟩
      · omega
      · intro x hx
        rcases List.mem_cons.mp hx with h | h
        · subst h
          exact hdom
        · exact hallrest x h
    · have hsel : (if TransactionIdPrecedes acc y then y else acc) = acc := by
        rw [hcmp, if_neg]
        intro hdec
        exact hlt (of_decide_eq_true hdec)
      rw [hstep, hsel]
      obtain ⟨hmem, hdom, hallrest⟩ := ih acc hacc hrest
      refine ⟨?_, hdom, ?_⟩
      · rcases List.mem_cons.mp hmem with h | h
        · rw [h]
          exact List.mem_cons_self acc (y :: rest)
        · exact List.mem_cons_of_mem acc (List.mem_cons_of_mem y h)
      · intro x hx
        rcases List.mem_cons.mp hx with h | h
        · subst h
          omega
        · exact hallrest x h

/-- Every windowed id at or below the maximum's position circularly precedes
the advanced maximum. -/
theorem advance_precedes (B W x m : Nat) (hW : W ≤ 2147483643) (_hB : B < U32)
    (hx : x < U32) (_hm : m < U32) (hnx : 3 ≤ x) (_hnm : 3 ≤ m)
    (hpx : sub32 x B ≤ W) (hpm : sub32 m B ≤ W) (hle : sub32 x B ≤ sub32 m B) :
    TransactionIdPrecedes x (TransactionIdAdvance m) = true := by
  have hc : 3 ≤ TransactionIdAdvance m ∧ TransactionIdAdvance m < U32 := by
    unfold TransactionIdAdvance FirstNormalTransactionId U32
    split <;> omega
  rw [tidPrecedes_normal x (TransactionIdAdvance m) ((isNormal_iff x).mpr hnx)
    ((isNormal_iff _).mpr hc.1)]
  apply decide_eq_true
  rw [toInt32_neg_iff, Nat.mod_eq_of_lt (sub32_lt _ _)]
  unfold TransactionIdAdvance FirstNormalTransactionId
  by_cases hcase : (m + 1) % U32 < 3
  · rw [if_pos hcase]
    unfold sub32 INT32MIN U32 at *
    omega
  · rw [if_neg hcase]
    unfold sub32 INT32MIN U32 at *
    omega

/-- Every windowed id strictly below another windowed id's position
circularly precedes it. -/
theorem window_precedes_lt (B W x n : Nat) (hW : W ≤ 2147483643) (_hB : B < U32)
    (hx : x < U32) (hn : n < U32) (hnx : 3 ≤ x) (hnn : 3 ≤ n)
    (hpx : sub32 x B ≤ W) (hpn : sub32 n B ≤ W) (hlt : sub32 x B < sub32 n B) :
    TransactionIdPrecedes x n = true := by
  rw [win_precedes B W x n (by omega) _hB hx hn hnx hnn hpx hpn]
  exact decide_eq_true hlt

/-- On a record whose member statuses are all valid, replaying a create
record computes the new global next-transaction-id by the conditional
advance over the circular maximum of the record's ids. -/
theorem redo_create_nextXid (xlXid mid moff : Nat) (ms : List MultiXactMember)
    (s : SysState) (hv : ∀ m ∈ ms, m.status ≤ MultiXactStatusUpdate)
    (hadv1 : MultiXactIdPrecedes s.mxState.nextMXact ((mid + 1) % U32) = false)
    (hadv2 : MultiXactOffsetPrecedes s.mxState.nextOffset
      ((moff + ms.length) % U32) = false) :
    (multixact_redo (.createId xlXid mid moff ms) s).state.nextXid =
      if TransactionIdFollowsOrEquals (maxXidOf xlXid (ms.map MultiXactMember.xid))
          s.nextXid
      then TransactionIdAdvance (maxXidOf xlXid (ms.map MultiXactMember.xid))
      else s.nextXid := by
  unfold multixact_redo
  have hok : (RecordNewMultiXact mid moff ms s.offSt s.memSt).ok = true := by
    rw [record_ok_iff]
    exact List.all_eq_true.mpr (fun m hm => decide_eq_true (hv m hm))
  have hA : MultiXactAdvanceNextMXact s.mxState ((mid + 1) % U32)
      ((moff + ms.length) % U32) = AdvanceResult.ok s.mxState := by
    unfold MultiXactAdvanceNextMXact
    rw [hadv1, hadv2]
    simp
  simp [hok, hA, RedoResult.state]

/-- Claim C4 as stated is false: replaying a CreateGroup record whose
mentioned transaction ids straddle the 2^31 wraparound boundary leaves a
counter that does not circularly follow every mentioned id.  Concretely, for
a record with mid 1, start offset 0, originating transaction 3 and single
member xid 2^31+3, replayed on a state whose multixact counters are already
at `⟨2, 1⟩` (so the intermediate counter advance does not fire and replay
reaches the nextXid code), with the global counter at 5: the circular
maximum is 2^31+3, the counter is set to 2^31+4 — and mentioned id 3 does
not circularly precede 2^31+4 (their 32-bit difference is 2^31-1,
nonnegative as an `int32`), so the resulting counter does not circularly
follow it. -/
theorem redo_nextXid_counterexample :
    (multixact_redo (.createId 3 1 0 [⟨2147483651, 0⟩])
      ⟨⟨fun _ _ => 0, fun _ => false⟩, ⟨fun _ _ => 0, fun _ => false⟩,
        ⟨2, 1⟩, 5⟩ : RedoResult).state.nextXid = 2147483652 ∧
    TransactionIdPrecedes 3 2147483652 = false := by
  constructor
  · rfl
  · rfl

/-- Claim C4 (amended): replay of a CreateGroup record reaches the global
next-transaction-id update only when neither multixact counter needs raising
— when one does, the intermediate `MultiXactAdvanceNextMXact` call aborts the
process first, its raise actions being unimplemented in this source.  On the
reachable path (valid member statuses, neither counter circularly preceding
its minimum), let `m` be the circular maximum (`maxXidOf`) over the record's
originating transaction id and all member xids; replay sets the counter to
one past `m` (skipping reserved special ids) exactly when `m`
follows-or-equals the counter, and leaves it unchanged otherwise.  Provided
every transaction id mentioned in the record and the prior counter are
normal ids lying in a single circular window of radius `XID_WINDOW`
(2^31 - 5) around some base `B`, the resulting counter circularly follows
every transaction id mentioned in the record. -/
theorem redo_nextXid_window (xlXid mid moff : Nat) (ms : List MultiXactMember)
    (s : SysState) (B : Nat)
    (hv : ∀ m ∈ ms, m.status ≤ MultiXactStatusUpdate)
    (hadv1 : MultiXactIdPrecedes s.mxState.nextMXact ((mid + 1) % U32) = false)
    (hadv2 : MultiXactOffsetPrecedes s.mxState.nextOffset
      ((moff + ms.length) % U32) = false)
    (hB : B < U32)
    (hwin : ∀ x ∈ s.nextXid :: xlXid :: ms.map MultiXactMember.xid,
      3 ≤ x ∧ x < U32 ∧ sub32 x B ≤ XID_WINDOW) :
    ((multixact_redo (.createId xlXid mid moff ms) s).state.nextXid =
      if TransactionIdFollowsOrEquals (maxXidOf xlXid (ms.map MultiXactMember.xid))
          s.nextXid
      then TransactionIdAdvance (maxXidOf xlXid (ms.map MultiXactMember.xid))
      else s.nextXid) ∧
    (∀ x ∈ xlXid :: ms.map MultiXactMember.xid,
      TransactionIdPrecedes x
        (multixact_redo (.createId xlXid mid moff ms) s).state.nextXid = true) := by
  have hpart1 := redo_create_nextXid xlXid mid moff ms s hv hadv1 hadv2
  refine ⟨hpart1, ?_⟩
  have hWle : XID_WINDOW ≤ 2147483643 := by
    unfold XID_WINDOW
    omega
  have hn := hwin s.nextXid (List.mem_cons_self _ _)
  have hxl := hwin xlXid (List.mem_cons_of_mem _ (List.mem_cons_self _ _))
  obtain ⟨hmem, hdomxl, hdomall⟩ := maxXidOf_window B XID_WINDOW hWle hB
    (ms.map MultiXactMember.xid) xlXid hxl
    (fun x hx => hwin x (List.mem_cons_of_mem _ (List.mem_cons_of_mem _ hx)))
  have hmprops := hwin (maxXidOf xlXid (ms.map MultiXactMember.xid))
    (List.mem_cons_of_mem _ hmem)
  intro x hx
  have hxprops := hwin x (List.mem_cons_of_mem _ hx)
  have hposx : sub32 x B ≤ sub32 (maxXidOf xlXid (ms.map MultiXactMember.xid)) B := by
    rcases List.mem_cons.mp hx with h | h
    · rw [h]
      exact hdomxl
    · exact hdomall x h
  rw [hpart1]
  by_cases hfoe : TransactionIdFollowsOrEquals
      (maxXidOf xlXid (ms.map MultiXactMember.xid)) s.nextXid = true
  · rw [if_pos hfoe]
    exact advance_precedes B XID_WINDOW x _ hWle hB hxprops.2.1 hmprops.2.1
      hxprops.1 hmprops.1 hxprops.2.2 hmprops.2.2 hposx
  · rw [if_neg hfoe]
    have hfe := win_foe B XID_WINDOW (maxXidOf xlXid (ms.map MultiXactMember.xid))
      s.nextXid (by omega) hB hmprops.2.1 hn.2.1 hmprops.1 hn.1 hmprops.2.2 hn.2.2
    have hlt : sub32 (maxXidOf xlXid (ms.map MultiXactMember.xid)) B <
        sub32 s.nextXid B := by
      by_contra hc
      apply hfoe
      rw [hfe]
      exact decide_eq_true (by omega)
    exact window_precedes_lt B XID_WINDOW x s.nextXid (by omega) hB
      hxprops.2.1 hn.2.1 hxprops.1 hn.1 hxprops.2.2 hn.2.2 (by omega)

theorem redo_nextXid_window_witness :
    ((multixact_redo (.createId 5 1 0 [⟨7, 1⟩])
      ⟨⟨fun _ _ => 0, fun _ => false⟩, ⟨fun _ _ => 0, fun _ => false⟩,
        ⟨2, 1⟩, 9⟩).state.nextXid =
      if TransactionIdFollowsOrEquals (maxXidOf 5 (([⟨7, 1⟩] : List MultiXactMember).map
          MultiXactMember.xid)) 9
      then TransactionIdAdvance (maxXidOf 5 (([⟨7, 1⟩] : List MultiXactMember).map
          MultiXactMember.xid))
      else 9) ∧
    (∀ x ∈ 5 :: ([⟨7, 1⟩] : List MultiXactMember).map MultiXactMember.xid,
      TransactionIdPrecedes x
        (multixact_redo (.createId 5 1 0 [⟨7, 1⟩])
          ⟨⟨fun _ _ => 0, fun _ => false⟩, ⟨fun _ _ => 0, fun _ => false⟩,
            ⟨2, 1⟩, 9⟩).state.nextXid = true) :=
  redo_nextXid_window 5 1 0 [⟨7, 1⟩]
    ⟨⟨fun _ _ => 0, fun _ => false⟩, ⟨fun _ _ => 0, fun _ => false⟩, ⟨2, 1⟩, 9⟩
    4 (by decide) (by decide) (by decide) (by decide) (by decide)
